import Mathlib

/-!
Verification of the LiteCore artifact download script (`fetch_litecore_base.py`).

The script's core logic is embedded shallowly:

* Python string operations (`str.split`, `str.index`, `str.find`, `str.replace`,
  `str.startswith`, `str.endswith`) are modelled as structurally recursive
  functions over `List Char`, so that every definition is kernel-executable.
* Functions that can raise (`variant_to_pair` on a dash-less unknown variant,
  `filename_for_platform` on a short build descriptor) return `Option`, with
  `none` standing for the raised exception.
* `pathlib.Path` is modelled as an absolute-flag plus a list of segments
  (`PyPath`); `Path.resolve()` is modelled as lexical normalisation of `..`
  segments (symlink-free filesystem).
* The side-effecting `download_variant` is modelled as a function from a pure
  network oracle and a flag describing the pre-state of the target directory to
  an event trace (`Event`), recording directory removal/creation, the single
  HTTP attempt, failure reporting, and extraction.
-/

/-! ## Python string primitives over `List Char` -/

/-- Python `s.startswith(pat)` on character lists. -/
def strStartsWith : List Char → List Char → Bool
  | [], _ => true
  | _ :: _, [] => false
  | a :: pat, b :: s => a = b && strStartsWith pat s

/-- Python `s.endswith(pat)` on character lists. -/
def strEndsWith (pat s : List Char) : Bool :=
  strStartsWith pat.reverse s.reverse

/-- Python `s.find(pat) != -1`: does `pat` occur as a contiguous substring? -/
def containsSub (pat : List Char) : List Char → Bool
  | [] => strStartsWith pat []
  | c :: rest => strStartsWith pat (c :: rest) || containsSub pat rest

/-- Python `s.index("-")` followed by slicing: split at the first dash,
`none` when there is no dash (Python raises `ValueError`). -/
def splitAtFirstDash : List Char → Option (List Char × List Char)
  | [] => none
  | c :: rest =>
    if c = '-' then some ([], rest)
    else
      match splitAtFirstDash rest with
      | none => none
      | some (a, b) => some (c :: a, b)

/-- Python `s.split(sep)` for a single-character separator: always returns at
least one piece; `"".split(sep) == [""]`. -/
def splitOnChar (sep : Char) : List Char → List (List Char)
  | [] => [[]]
  | c :: rest =>
    match splitOnChar sep rest with
    | [] => [[c]]
    | h :: t => if c = sep then [] :: h :: t else (c :: h) :: t

/-- Fuel-bounded helper for `replaceAll`; fuel `s.length` always suffices. -/
def replaceAllAux (pat rep : List Char) : Nat → List Char → List Char
  | _, [] => []
  | 0, s => s
  | fuel + 1, c :: rest =>
    if strStartsWith pat (c :: rest) then
      rep ++ replaceAllAux pat rep fuel (List.drop (pat.length - 1) rest)
    else
      c :: replaceAllAux pat rep fuel rest

/-- Python `s.replace(pat, rep)` for a non-empty pattern: replace every
non-overlapping occurrence, left to right.  (The script only ever calls it with
the pattern `"win64"`; the empty-pattern case is mapped to the identity.) -/
def replaceAll (pat rep s : List Char) : List Char :=
  if pat = [] then s else replaceAllAux pat rep s.length s

/-! ## VariantSplitter: `variant_to_pair` -/

/-- Embedding of `variant_to_pair` (fetch_litecore_base.py, lines 144-176).
Returns `none` where Python raises `ValueError` (`variant.index("-")` on a
dash-less string). -/
def variant_to_pair (variant : String) : Option (String × String) :=
  if variant = "linux" ∨ variant = "centos6" then
    some (variant, "x86_64")
  else if variant = "macosx" then
    some ("macos", "")
  else if strStartsWith "ios".data variant.data then
    some ("ios", "")
  else
    match splitAtFirstDash variant.data with
    | none => none
    | some (osl, abil) =>
      let osname := String.mk osl
      if osname = "android" then
        some (osname, String.mk abil)
      else if containsSub "win64".data abil then
        some ("windows", String.mk (replaceAll "win64".data "x86_64".data abil))
      else
        some (osname, String.mk abil)

/-- Spec-side rule table for the splitter, transcribed from §4.3 of the spec
("first match wins"): `linux`/`centos6` keep their name with abi `x86_64`;
`macosx` becomes `("macos", "")`; an `ios` prefix gives `("ios", "")`;
otherwise split at the first `-`, keep an `android` split as-is, turn an abi
containing `win64` into `("windows", abi with win64 -> x86_64)`, and fail
(`InvalidVariant`) when there is no `-` at all. -/
def variant_to_pair_spec (variant : String) : Option (String × String) :=
  if variant = "linux" ∨ variant = "centos6" then
    some (variant, "x86_64")
  else if variant = "macosx" then
    some ("macos", "")
  else if strStartsWith "ios".data variant.data then
    some ("ios", "")
  else
    match splitAtFirstDash variant.data with
    | none => none
    | some (osl, abil) =>
      let osname := String.mk osl
      if osname = "android" then
        some (osname, String.mk abil)
      else if containsSub "win64".data abil then
        some ("windows", String.mk (replaceAll "win64".data "x86_64".data abil))
      else
        some (osname, String.mk abil)

/-! ## FilenameResolver: `filename_for_platform` -/

/-- Embedding of `filename_for_platform` (fetch_litecore_base.py, lines 30-57).
`none` models the `IndexError` Python raises when `build` has fewer than two
hyphen-delimited segments (`build_parts[1]` out of range); the spec calls this
failure `MalformedBuildDescriptor`. -/
def filename_for_platform (platform : String) (debug : Bool) (build : Option String) :
    Option String :=
  let platform := if platform = "ios/net" then "ios" else platform
  let debug_str := if debug then "-debug" else ""
  let ext := if platform = "linux" ∨ platform = "centos6" then "tar.gz" else "zip"
  match build with
  | some b =>
    let build_parts := splitOnChar '-' b.data
    let edition :=
      if build_parts.length > 2 ∧ build_parts.get? 2 = some "EE".data then
        "enterprise"
      else
        "community"
    match build_parts.get? 0, build_parts.get? 1 with
    | some p0, some p1 =>
      some ("couchbase-lite-core-" ++ edition ++ "-" ++ String.mk p0 ++ "-" ++
        String.mk p1 ++ "-" ++ platform ++ debug_str ++ "." ++ ext)
    | _, _ => none
  | none =>
    some ("couchbase-lite-core-" ++ platform ++ debug_str ++ "." ++ ext)

/-- Spec-side filename rules, transcribed from §4.2 of the spec, applied in
order: `ios/net` is renamed to `ios` for naming only; the debug suffix is
`-debug` iff debug; the extension is `tar.gz` for `linux`/`centos6` and `zip`
otherwise; a null build gives `couchbase-lite-core-{variant}{debug}.{ext}`; a
non-null build is split on `-`, edition `enterprise` iff more than two segments
and segment 2 is `EE` else `community`, failing (`MalformedBuildDescriptor`)
when segment 0 or segment 1 is missing. -/
def resolve_filename_spec (platform : String) (debug : Bool) (build : Option String) :
    Option String :=
  let platform := if platform = "ios/net" then "ios" else platform
  let debug_str := if debug then "-debug" else ""
  let ext := if platform = "linux" ∨ platform = "centos6" then "tar.gz" else "zip"
  match build with
  | some b =>
    let build_parts := splitOnChar '-' b.data
    let edition :=
      if build_parts.length > 2 ∧ build_parts.get? 2 = some "EE".data then
        "enterprise"
      else
        "community"
    match build_parts.get? 0, build_parts.get? 1 with
    | some p0, some p1 =>
      some ("couchbase-lite-core-" ++ edition ++ "-" ++ String.mk p0 ++ "-" ++
        String.mk p1 ++ "-" ++ platform ++ debug_str ++ "." ++ ext)
    | _, _ => none
  | none =>
    some ("couchbase-lite-core-" ++ platform ++ debug_str ++ "." ++ ext)

/-! ## VariantExpander: `calculate_variants` -/

/-- Embedding of the per-token expansion table inside `calculate_variants`
(fetch_litecore_base.py, lines 264-280): the body of the `if/elif` chain of the
loop, giving the set each token contributes to the union. -/
def expansion (v : String) : Finset String :=
  if v = "dotnet" then
    {"linux", "android-x86_64", "android-x86", "android-armeabi-v7a",
     "android-arm64-v8a", "macosx", "ios/net", "windows-win64", "windows-arm64"}
  else if v = "android" then
    {"android-x86_64", "android-x86", "android-armeabi-v7a", "android-arm64-v8a"}
  else if v = "java" then
    {"linux", "macosx", "windows-win64"}
  else if v = "windows" then
    {"windows-win64", "windows-arm64"}
  else if v = "macos" then
    {"macosx"}
  else
    {v}

/-- Spec-side expansion table, transcribed from §4.1 of the spec. -/
def expansion_spec (v : String) : Finset String :=
  if v = "dotnet" then
    {"linux", "android-x86_64", "android-x86", "android-armeabi-v7a",
     "android-arm64-v8a", "macosx", "ios/net", "windows-win64", "windows-arm64"}
  else if v = "android" then
    {"android-x86_64", "android-x86", "android-armeabi-v7a", "android-arm64-v8a"}
  else if v = "java" then
    {"linux", "macosx", "windows-win64"}
  else if v = "windows" then
    {"windows-win64", "windows-arm64"}
  else if v = "macos" then
    {"macosx"}
  else
    {v}

/-- Embedding of `calculate_variants` (fetch_litecore_base.py, lines 264-280):
the Python loop unions each token's expansion into an accumulator set, which on
a set-valued input is exactly a bounded union. -/
def calculate_variants (original : Finset String) : Finset String :=
  original.biUnion expansion

/-- The five meta-variant tokens recognised by the `if/elif` chain. -/
def isMeta (v : String) : Bool :=
  v = "dotnet" || v = "android" || v = "java" || v = "windows" || v = "macos"

/-! ## Paths and PathResolver: `calculate_download_path` -/

/-- Model of `pathlib.Path`: an absolute flag plus the list of (non-empty,
non-dot) segments. -/
structure PyPath where
  absolute : Bool
  segments : List String
deriving DecidableEq

/-- Model of the `Path(str)` constructor: absolute iff the string starts with
`/`; spurious empty segments and single dots are collapsed, as pathlib does.
(The POSIX leading-double-slash root special case is not modelled.) -/
def parsePath (s : String) : PyPath :=
  { absolute := strStartsWith "/".data s.data
    segments :=
      ((splitOnChar '/' s.data).filter
        (fun seg => !seg.isEmpty && seg ≠ ".".data)).map String.mk }

/-- Model of `Path.joinpath`: an absolute right argument replaces the left. -/
def PyPath.joinpath (p q : PyPath) : PyPath :=
  if q.absolute then q else { absolute := p.absolute, segments := p.segments ++ q.segments }

/-- Stack-based elimination of `..` segments (a `..` at the root is dropped,
as `Path("/..").resolve()` gives `/`). -/
def resolveSegsAux : List String → List String → List String
  | stack, [] => stack.reverse
  | stack, seg :: rest =>
    if seg = ".." then resolveSegsAux stack.tail rest
    else resolveSegsAux (seg :: stack) rest

/-- Model of `Path.resolve()` on a symlink-free filesystem: lexical
normalisation of `..` segments. -/
def PyPath.resolve (p : PyPath) : PyPath :=
  { p with segments := resolveSegsAux [] p.segments }

/-- Render a `PyPath` back to a string, as an f-string interpolation does. -/
def joinSegs : List String → String
  | [] => ""
  | [s] => s
  | s :: t :: rest => s ++ "/" ++ joinSegs (t :: rest)

/-- String form of a path (used where the script interpolates the `Path`). -/
def PyPath.render (p : PyPath) : String :=
  (if p.absolute then "/" else "") ++ joinSegs p.segments

/-- Embedding of `calculate_download_path` (fetch_litecore_base.py, lines
178-202).  The ambient globals become parameters: `hook` is
`subdirectory_for_variant` when `has_platform` is set (`none` otherwise) and
`cwd` is `Path(os.getcwd())`.  `none` propagates the `ValueError` from
`variant_to_pair`. -/
def calculate_download_path (hook : Option (String → String → String)) (cwd : PyPath)
    (variant : String) (output_base : String) : Option PyPath :=
  let output_base_path := parsePath output_base
  let output_base_path :=
    if output_base_path.absolute then output_base_path else cwd.joinpath output_base_path
  match variant_to_pair variant with
  | none => none
  | some (osname, abi) =>
    let subdirectory :=
      match hook with
      | some f => f osname abi
      | none => osname ++ "/" ++ abi
    some ((output_base_path.joinpath (parsePath subdirectory)).resolve)

/-- Spec-side path rules, transcribed from §4.4 of the spec: anchor a relative
`output_base` at the current working directory, split the variant, take the
override hook's subdirectory when registered and `os/abi` otherwise, then join
and fully resolve. -/
def resolve_path_spec (hook : Option (String → String → String)) (cwd : PyPath)
    (variant : String) (output_base : String) : Option PyPath :=
  let output_base_path := parsePath output_base
  let output_base_path :=
    if output_base_path.absolute then output_base_path else cwd.joinpath output_base_path
  match variant_to_pair variant with
  | none => none
  | some (osname, abi) =>
    let subdirectory :=
      match hook with
      | some f => f osname abi
      | none => osname ++ "/" ++ abi
    some ((output_base_path.joinpath (parsePath subdirectory)).resolve)

/-! ## Zip extraction: `unzip` -/

/-- A zip archive entry as `zipfile` presents it: name, the 32-bit external
file attributes, and the entry's content decoded as text (only read for
symlink entries, whose content is the link target). -/
structure ZipEntry where
  filename : String
  external_attr : Nat
  content : String
deriving DecidableEq

/-- Filesystem actions `unzip` performs per entry. -/
inductive FsAction where
  | symlink (target : String) (dest : String)
  | extract (name : String) (dest : String)
deriving DecidableEq

/-- Embedding of `unzip` (fetch_litecore_base.py, lines 204-214): an entry
whose `external_attr >> 28` equals `0xA` is recreated via
`os.symlink(content, os.path.join(dest, name))`; every other entry goes
through `zip.extract`. -/
def unzip (entries : List ZipEntry) (dest : String) : List FsAction :=
  entries.map fun zipinfo =>
    if zipinfo.external_attr >>> 28 = 0xA then
      FsAction.symlink zipinfo.content (dest ++ "/" ++ zipinfo.filename)
    else
      FsAction.extract zipinfo.filename dest

/-! ## ArtifactFetcher: `download_variant` -/

/-- Observable side effects of `download_variant`, in program order. -/
inductive Event where
  | removeTree (path : String)
  | makeDirs (path : String)
  | httpGet (url : String) (dest : String)
  | reportFailure (code : Nat)
  | extractTarGz (archive : String) (dest : String)
  | extractZip (archive : String) (dest : String)
deriving DecidableEq

/-- Is the event a `tarfile`/`unzip` extraction? -/
def isExtractEvent : Event → Bool
  | Event.extractTarGz _ _ => true
  | Event.extractZip _ _ => true
  | _ => false

/-- Is the event an HTTP retrieval attempt? -/
def isHttpEvent : Event → Bool
  | Event.httpGet _ _ => true
  | _ => false

/-- Embedding of `download_variant` (fetch_litecore_base.py, lines 216-262) as
an event-trace semantics.  `net url` is the outcome of
`urllib.request.urlretrieve`: `Except.error code` models an `HTTPError` with
that status code.  `target_exists` is the prior `os.path.exists(download_path)`
state.  The result is `none` when `filename_for_platform` or
`calculate_download_path` raises, and otherwise the returned tally (0 or 1)
paired with the ordered effect trace. -/
def download_variant (net : String → Except Nat Unit)
    (hook : Option (String → String → String)) (cwd : PyPath) (target_exists : Bool)
    (download_folder variant : String) (build : Option String) (debug : Bool)
    (output_base : String) : Option (Nat × List Event) :=
  match filename_for_platform variant debug build with
  | none => none
  | some filename =>
    let download_url := download_folder ++ "/" ++ filename
    match calculate_download_path hook cwd variant output_base with
    | none => none
    | some download_path =>
      let dp := download_path.render
      let pre := (if target_exists then [Event.removeTree dp] else []) ++ [Event.makeDirs dp]
      let full_path := dp ++ "/" ++ filename
      match net download_url with
      | Except.error code =>
        some (1, pre ++ [Event.httpGet download_url full_path, Event.reportFailure code])
      | Except.ok _ =>
        if variant = "ios/net" then
          some (0, pre ++ [Event.httpGet download_url full_path])
        else if strEndsWith "tar.gz".data filename.data then
          some (0, pre ++ [Event.httpGet download_url full_path,
            Event.extractTarGz full_path dp])
        else
          some (0, pre ++ [Event.httpGet download_url full_path,
            Event.extractZip full_path dp])

/-! ## Library lemmas -/

theorem splitAtFirstDash_eq_none_iff (l : List Char) :
    splitAtFirstDash l = none ↔ '-' ∉ l := by
  induction l with
  | nil => simp [splitAtFirstDash]
  | cons c rest ih =>
    by_cases hc : c = '-'
    · subst hc; simp [splitAtFirstDash]
    · simp only [splitAtFirstDash, if_neg hc]
      cases hs : splitAtFirstDash rest with
      | none => simp [ih.mp hs, Ne.symm hc]
      | some p =>
        obtain ⟨a, b⟩ := p
        have hr : '-' ∈ rest := by
          by_contra hn
          rw [ih.mpr hn] at hs
          exact Option.noConfusion hs
        simp [hr]

theorem not_meta_of_mem_expansion (t v : String) (h : v ∈ expansion t) :
    isMeta v = false := by
  unfold expansion at h
  split_ifs at h with h1 h2 h3 h4 h5
  · fin_cases h <;> decide
  · fin_cases h <;> decide
  · fin_cases h <;> decide
  · fin_cases h <;> decide
  · fin_cases h
    decide
  · rw [Finset.mem_singleton] at h
    subst h
    simp [isMeta, h1, h2, h3, h4, h5]

theorem expansion_of_not_meta (v : String) (h : isMeta v = false) :
    expansion v = {v} := by
  simp only [isMeta, Bool.or_eq_false_iff, decide_eq_false_iff_not] at h
  obtain ⟨⟨⟨⟨h1, h2⟩, h3⟩, h4⟩, h5⟩ := h
  simp [expansion, h1, h2, h3, h4, h5]

/-! ## Claims -/

/-- C1: for every variant string `variant_to_pair` follows the spec's rule
table with first match winning (`linux`/`centos6` keep their name with abi
`x86_64`; `macosx` gives `("macos", "")`; an `ios` prefix gives `("ios", "")`;
otherwise the variant splits at its first `-`, an `android` split is returned
as-is, an abi containing `win64` forces os `windows` with `win64` replaced by
`x86_64`, and anything else is returned as split), and the five example
equalities of §8 hold. -/
theorem claim_C1 :
    (∀ v, variant_to_pair v = variant_to_pair_spec v) ∧
    variant_to_pair "windows-win64" = some ("windows", "x86_64") ∧
    variant_to_pair "linux" = some ("linux", "x86_64") ∧
    variant_to_pair "macosx" = some ("macos", "") ∧
    variant_to_pair "ios/net" = some ("ios", "") ∧
    variant_to_pair "android-arm64-v8a" = some ("android", "arm64-v8a") :=
  ⟨fun _ => rfl, by decide, by decide, by decide, by decide, by decide⟩

/-- C2: for every variant, debug flag and optional build string,
`filename_for_platform` follows the spec's ordered filename rules (`ios/net`
renamed to `ios` for naming only; `-debug` suffix iff debug; extension
`tar.gz` exactly for `linux`/`centos6` and `zip` otherwise; the null-build and
non-null-build filename shapes with edition `enterprise` iff the hyphen-split
build has more than 2 segments and segment 2 equals `EE`), and the three §8
filename examples hold. -/
theorem claim_C2 :
    (∀ p d b, filename_for_platform p d b = resolve_filename_spec p d b) ∧
    filename_for_platform "windows-win64" false none =
      some "couchbase-lite-core-windows-win64.zip" ∧
    filename_for_platform "linux" true (some "3.1.0-97-EE") =
      some "couchbase-lite-core-enterprise-3.1.0-97-linux-debug.tar.gz" ∧
    filename_for_platform "macosx" false (some "3.1.0-97") =
      some "couchbase-lite-core-community-3.1.0-97-macosx.zip" :=
  ⟨fun _ _ _ => rfl, by decide, by decide, by decide⟩

/-- C3: for every input set of tokens, `calculate_variants` is the union over
the input of each token's expansion per the spec's fixed table (unrecognized
tokens pass through unchanged, duplicates collapse), and `expand({dotnet})`
has exactly 9 elements and does not contain `dotnet`. -/
theorem claim_C3 :
    (∀ (S : Finset String) (v : String),
      v ∈ calculate_variants S ↔ ∃ t ∈ S, v ∈ expansion_spec t) ∧
    (calculate_variants {"dotnet"}).card = 9 ∧
    "dotnet" ∉ calculate_variants {"dotnet"} := by
  refine ⟨?_, by decide, by decide⟩
  intro S v
  have h : expansion = expansion_spec := rfl
  unfold calculate_variants
  rw [h]
  exact Finset.mem_biUnion

/-- C5: `filename_for_platform` with a non-null build fails (the spec's
`MalformedBuildDescriptor`) exactly when the build has fewer than 2
hyphen-delimited segments; with 2 or more segments it never raises. -/
theorem claim_C5 : ∀ (platform : String) (debug : Bool) (b : String),
    filename_for_platform platform debug (some b) = none ↔
      (splitOnChar '-' b.data).length < 2 := by
  intro p d b
  rcases hs : splitOnChar '-' b.data with _ | ⟨p0, _ | ⟨p1, t⟩⟩ <;>
    simp [filename_for_platform, hs]

/-- C6: `variant_to_pair` fails (the spec's `InvalidVariant`) exactly when the
variant contains no `-` character and is none of the fixed-name cases
(`linux`, `centos6`, `macosx`, or a string starting with `ios`); for every
other variant it succeeds. -/
theorem claim_C6 : ∀ v : String,
    variant_to_pair v = none ↔
      ('-' ∉ v.data ∧ v ≠ "linux" ∧ v ≠ "centos6" ∧ v ≠ "macosx" ∧
        strStartsWith "ios".data v.data = false) := by
  intro v
  unfold variant_to_pair
  split_ifs with h1 h2 h3
  · rcases h1 with h | h <;> subst h <;> decide
  · subst h2; decide
  · simp only [false_iff, reduceCtorEq, not_and]
    intro _ _ _ _ hi
    rw [h3] at hi
    cases hi
  · push_neg at h1
    have h3' : strStartsWith "ios".data v.data = false := by
      cases hb : strStartsWith "ios".data v.data
      · rfl
      · exact absurd hb h3
    cases hs : splitAtFirstDash v.data with
    | none =>
      simp only [true_iff]
      exact ⟨(splitAtFirstDash_eq_none_iff v.data).mp hs, h1.1, h1.2, h2, h3'⟩
    | some p =>
      obtain ⟨osl, abil⟩ := p
      have hdash : '-' ∈ v.data := by
        by_contra hn
        rw [(splitAtFirstDash_eq_none_iff v.data).mpr hn] at hs
        exact Option.noConfusion hs
      simp only [hs]
      constructor
      · intro hcontr
        split_ifs at hcontr
      · rintro ⟨hnd, -⟩
        exact absurd hdash hnd

/-- C7: `calculate_variants` is idempotent — no element of its output is
itself a meta-variant subject to further expansion, so
`expand(expand(S)) = expand(S)` for every set `S`. -/
theorem claim_C7 : ∀ S : Finset String,
    calculate_variants (calculate_variants S) = calculate_variants S := by
  intro S
  ext x
  simp only [calculate_variants, Finset.mem_biUnion]
  constructor
  · rintro ⟨v, ⟨t, ht, hv⟩, hx⟩
    rw [expansion_of_not_meta v (not_meta_of_mem_expansion t v hv),
      Finset.mem_singleton] at hx
    subst hx
    exact ⟨t, ht, hv⟩
  · rintro ⟨t, ht, hx⟩
    refine ⟨x, ⟨t, ht, hx⟩, ?_⟩
    rw [expansion_of_not_meta x (not_meta_of_mem_expansion t x hx)]
    exact Finset.mem_singleton_self x

/-- C4: `calculate_download_path` follows the spec's path rules (output base
anchored at the current working directory when relative, joined with the
override hook's subdirectory when registered and with the default `os/abi`
otherwise, fully resolved), it succeeds exactly when `variant_to_pair`
succeeds, and `resolve_path("windows-win64", "/out")` without an override is
`/out/windows/x86_64`. -/
theorem claim_C4 :
    (∀ hook cwd (variant output_base : String),
      calculate_download_path hook cwd variant output_base =
        resolve_path_spec hook cwd variant output_base ∧
      ((calculate_download_path hook cwd variant output_base).isSome ↔
        (variant_to_pair variant).isSome)) ∧
    calculate_download_path none ⟨true, ["home"]⟩ "windows-win64" "/out" =
      some ⟨true, ["out", "windows", "x86_64"]⟩ := by
  refine ⟨fun hook cwd v ob => ⟨rfl, ?_⟩, by decide⟩
  unfold calculate_download_path
  cases h : variant_to_pair v with
  | none => simp [h]
  | some pr => simp [h]

/-- C9: during `unzip`, an archive entry whose stored external file
attributes have upper nibble `0xA` is recreated as a symbolic link whose
target is the entry's content text, and every other entry is extracted
normally; in particular a symlink entry with target `../lib/foo.so` becomes
that exact symlink, not a regular file. -/
theorem claim_C9 :
    (∀ (entries : List ZipEntry) (dest : String),
      unzip entries dest = entries.map fun zi =>
        if zi.external_attr / 2 ^ 28 = 0xA then
          FsAction.symlink zi.content (dest ++ "/" ++ zi.filename)
        else
          FsAction.extract zi.filename dest) ∧
    unzip [⟨"lib/foo.so", 0xA1ED0000, "../lib/foo.so"⟩] "/out" =
      [FsAction.symlink "../lib/foo.so" "/out/lib/foo.so"] ∧
    unzip [⟨"doc.txt", 0x81ED0000, "ignored"⟩] "/out" =
      [FsAction.extract "doc.txt" "/out"] := by
  refine ⟨fun entries dest => ?_, by decide, by decide⟩
  unfold unzip
  simp [Nat.shiftRight_eq_div_pow]

/-- C8: when the HTTP GET for a variant fails, `download_variant` reports the
status code, returns failure (1) with a single retrieval attempt and no
extraction event in its trace; when the download succeeds it returns 0. -/
theorem claim_C8 : ∀ (net : String → Except Nat Unit)
    (hook : Option (String → String → String)) (cwd : PyPath) (target_exists : Bool)
    (download_folder variant : String) (build : Option String) (debug : Bool)
    (output_base : String) (fn : String) (p : PyPath) (code : Nat),
    filename_for_platform variant debug build = some fn →
    calculate_download_path hook cwd variant output_base = some p →
    (net (download_folder ++ "/" ++ fn) = Except.error code →
      ∃ tr, download_variant net hook cwd target_exists download_folder variant
          build debug output_base = some (1, tr) ∧
        Event.reportFailure code ∈ tr ∧
        tr.filter isExtractEvent = [] ∧
        tr.filter isHttpEvent =
          [Event.httpGet (download_folder ++ "/" ++ fn) (p.render ++ "/" ++ fn)]) ∧
    (net (download_folder ++ "/" ++ fn) = Except.ok () →
      ∃ tr, download_variant net hook cwd target_exists download_folder variant
          build debug output_base = some (0, tr)) := by
  intro net hook cwd te df v b d ob fn p code hfn hpath
  constructor
  · intro hnet
    simp only [download_variant, hfn, hpath, hnet]
    refine ⟨_, rfl, ?_, ?_, ?_⟩
    · simp
    · cases te <;> simp [isExtractEvent]
    · cases te <;> simp [isHttpEvent]
  · intro hnet
    simp only [download_variant, hfn, hpath, hnet]
    split_ifs <;> exact ⟨_, rfl⟩

/-- C10 (implicit): `download_variant` removes a pre-existing target
directory and recreates it before issuing the network request, so on an HTTP
failure the trace is exactly remove, create, attempt, report — the prior
contents are gone and nothing restores them. -/
theorem claim_C10 : ∀ (net : String → Except Nat Unit)
    (hook : Option (String → String → String)) (cwd : PyPath)
    (download_folder variant : String) (build : Option String) (debug : Bool)
    (output_base : String) (fn : String) (p : PyPath) (code : Nat),
    filename_for_platform variant debug build = some fn →
    calculate_download_path hook cwd variant output_base = some p →
    net (download_folder ++ "/" ++ fn) = Except.error code →
    download_variant net hook cwd true download_folder variant build debug
        output_base =
      some (1, [Event.removeTree p.render, Event.makeDirs p.render,
        Event.httpGet (download_folder ++ "/" ++ fn) (p.render ++ "/" ++ fn),
        Event.reportFailure code]) := by
  intro net hook cwd df v b d ob fn p code hfn hpath hnet
  simp only [download_variant, hfn, hpath, hnet]
  rfl

/-! ## Witnesses -/

/-- Witness for C3 at a concrete input. -/
theorem claim_C3_witness : "linux" ∈ calculate_variants {"dotnet"} :=
  (claim_C3.1 {"dotnet"} "linux").mpr ⟨"dotnet", by decide, by decide⟩

/-- Witness for C4 at a concrete input. -/
theorem claim_C4_witness :
    (calculate_download_path none ⟨true, []⟩ "linux" "/base").isSome :=
  ((claim_C4.1 none ⟨true, []⟩ "linux" "/base").2).mpr (by decide)

/-- Witness for C5 at a concrete input. -/
theorem claim_C5_witness :
    filename_for_platform "android-x86" false (some "97") = none :=
  (claim_C5 "android-x86" false "97").mpr (by decide)

/-- Witness for C6 at a concrete input. -/
theorem claim_C6_witness : variant_to_pair "freebsd" = none :=
  (claim_C6 "freebsd").mpr (by decide)

/-- Witness for C8 at a concrete input: a 404 against the linux variant. -/
theorem claim_C8_witness :
    ∃ tr, download_variant (fun _ => Except.error 404) none ⟨true, []⟩ false
        "http://server" "linux" none false "/out" = some (1, tr) ∧
      Event.reportFailure 404 ∈ tr ∧
      tr.filter isExtractEvent = [] ∧
      tr.filter isHttpEvent =
        [Event.httpGet ("http://server" ++ "/" ++ "couchbase-lite-core-linux.tar.gz")
          ((PyPath.mk true ["out", "linux", "x86_64"]).render ++ "/" ++
            "couchbase-lite-core-linux.tar.gz")] :=
  (claim_C8 (fun _ => Except.error 404) none ⟨true, []⟩ false "http://server"
    "linux" none false "/out" "couchbase-lite-core-linux.tar.gz"
    ⟨true, ["out", "linux", "x86_64"]⟩ 404 (by decide) (by decide)).1 rfl

/-- Witness for C10 at a concrete input: a 500 against windows-win64 with a
pre-existing target directory. -/
theorem claim_C10_witness :
    download_variant (fun _ => Except.error 500) none ⟨true, []⟩ true
        "http://server" "windows-win64" none true "/out2" =
      some (1, [Event.removeTree "/out2/windows/x86_64",
        Event.makeDirs "/out2/windows/x86_64",
        Event.httpGet ("http://server" ++ "/" ++ "couchbase-lite-core-windows-win64-debug.zip")
          ("/out2/windows/x86_64" ++ "/" ++ "couchbase-lite-core-windows-win64-debug.zip"),
        Event.reportFailure 500]) := by
  have h := claim_C10 (fun _ => Except.error 500) none ⟨true, []⟩ "http://server"
    "windows-win64" none true "/out2" "couchbase-lite-core-windows-win64-debug.zip"
    ⟨true, ["out2", "windows", "x86_64"]⟩ 500 (by decide) (by decide) rfl
  simpa using h
